import Mathlib

/-!
Verification development for the PriceSheetGenerator service (`src/app.js`).

The program is a single Express upload handler: it parses an uploaded
spreadsheet into rows, trims the column headers, renders one 800×200 card
per row (background layer, optional product photo located by a slug probe
over a fixed extension list, and an SVG text overlay), stitches the cards
into a 3-column grid on a white canvas and exports PNG/PDF.

We shallowly embed the handler's data flow: JavaScript string operations
(`trim`, `replace(/\s+/g, …)`, `toLowerCase`) become Lean functions over
`List Char`; spreadsheet cells become a small `JsValue` type with JS
truthiness; the filesystem and the image library are abstracted as
function parameters (`exists`, `contents`); thrown exceptions become
`Option`/`Except` results.
-/

set_option autoImplicit false

namespace PriceSheet

/-! ### JavaScript whitespace, trim, and regex-replace model

`String.prototype.trim` and the regex class `\s` use the same character
set (WhiteSpace ∪ LineTerminator of the ECMAScript spec). -/

/-- Characters matched by JavaScript `\s` and trimmed by `String.prototype.trim`. -/
def isJsWs (c : Char) : Bool :=
  c = ' ' || c = '\t' || c = '\n' || c = '\x0b' || c = '\x0c' || c = '\r' ||
  c.toNat = 0xa0 || c.toNat = 0x1680 ||
  (0x2000 ≤ c.toNat && c.toNat ≤ 0x200a) ||
  c.toNat = 0x2028 || c.toNat = 0x2029 || c.toNat = 0x202f ||
  c.toNat = 0x205f || c.toNat = 0x3000 || c.toNat = 0xfeff

/-- Drop trailing whitespace from a character list. -/
def dropTrailWs (l : List Char) : List Char :=
  (l.reverse.dropWhile isJsWs).reverse

/-- JavaScript `s.trim()`: remove leading and trailing whitespace. -/
def trimJs (s : String) : String :=
  String.mk (dropTrailWs (s.data.dropWhile isJsWs))

/-- JavaScript `s.replace(/\s+/g, '')`: remove every whitespace character,
    interior ones included. -/
def stripJsWs (s : String) : String :=
  String.mk (s.data.filter (fun c => !isJsWs c))

/-- Core of `replace(/\s+/g, '-')`: each maximal whitespace run becomes one
    hyphen.  The boolean records whether the previous character was part of a
    whitespace run already replaced. -/
def collapseWsAux : List Char → Bool → List Char
  | [], _ => []
  | c :: rest, prevWs =>
    if isJsWs c then
      if prevWs then collapseWsAux rest true
      else '-' :: collapseWsAux rest true
    else c :: collapseWsAux rest false

/-- JavaScript `s.replace(/\s+/g, '-')`. -/
def collapseWsToHyphen (s : String) : String :=
  String.mk (collapseWsAux s.data false)

/-- JavaScript `s.toLowerCase()` (ASCII range; the slugs in this system are
    derived from ASCII product names). -/
def lowerJs (s : String) : String :=
  String.mk (s.data.map Char.toLower)

/-! ### Spreadsheet cell values and JS truthiness

`xlsx.utils.sheet_to_json` yields strings, numbers or booleans per cell. -/

/-- A spreadsheet cell value as produced by `sheet_to_json`. -/
inductive JsValue where
  | str (s : String)
  | num (n : Int)
  | bool (b : Bool)
  deriving DecidableEq, Repr

/-- JavaScript truthiness of a cell value: `''`, `0` and `false` are falsy. -/
def jsTruthy : JsValue → Bool
  | .str s => !s.isEmpty
  | .num n => n != 0
  | .bool b => b

/-- JavaScript `String(v)` conversion. -/
def jsToString : JsValue → String
  | .str s => s
  | .num n => toString n
  | .bool b => if b then "true" else "false"

/-- JavaScript `item[key] || dflt`: the cell value when present and truthy,
    otherwise the default (`undefined` is falsy). -/
def jsOr (cell : Option JsValue) (dflt : JsValue) : JsValue :=
  match cell with
  | some v => if jsTruthy v then v else dflt
  | none => dflt

/-- JavaScript `v.trim()`: defined on strings, a thrown `TypeError` on
    anything else (modelled as `none`). -/
def jsTrim : JsValue → Option String
  | .str s => some (trimJs s)
  | _ => none

/-! ### Rows as JS objects -/

/-- One row as a JS object: an association list with unique keys in
    insertion order. -/
abbrev Row := List (String × JsValue)

/-- Property access `row[key]`. -/
def objGet (row : Row) (key : String) : Option JsValue :=
  (List.find? (fun kv => kv.1 = key) row).map (·.2)

/-- Property assignment `row[key] = v`: overwrite an existing key in place,
    otherwise append. -/
def objSet (row : Row) (key : String) (v : JsValue) : Row :=
  match row with
  | [] => [(key, v)]
  | kv :: rest =>
    if kv.1 = key then (key, v) :: rest else kv :: objSet rest key v

/-- `app.js` lines 54–61: build `cleanedRow` by iterating the row's keys,
    trimming each key, and assigning the untouched value under the trimmed
    key. -/
def cleanRow (row : Row) : Row :=
  row.foldl (fun acc kv => objSet acc (trimJs kv.1) kv.2) []

/-! ### Asset resolver (`findProductImage`, `app.js` lines 21–30) -/

/-- The supported extensions, in probe order (`app.js` line 22). -/
def extensions : List String := [".png", ".jpg", ".jpeg", ".webp"]

/-- `path.join(__dirname, 'images', slug + ext)`, with `__dirname` elided. -/
def imagePath (slug ext : String) : String :=
  "images/" ++ slug ++ ext

/-- `findProductImage`: probe each extension in order against the images
    directory, returning the first existing path, else `null`.
    `ex` abstracts `fs.existsSync`. -/
def findProductImage (ex : String → Bool) (slug : String) : Option String :=
  List.find? ex (extensions.map (imagePath slug))

/-- `app.js` line 95: slug of the (already trimmed) product display text —
    lowercase, then each whitespace run becomes one hyphen. -/
def slugOf (text : String) : String :=
  collapseWsToHyphen (lowerJs text)

/-! ### Per-row field extraction (`app.js` lines 87–92)

Each extraction mirrors one line of the render loop.  `.trim()` on a
non-string cell throws, hence the `Option` results; `price`/`oldPrice`
first pass through `String(…)` and so are total. -/

/-- Line 87: `(item['Product'] || 'No Product').trim()`. -/
def textOf (item : Row) : Option String :=
  jsTrim (jsOr (objGet item "Product") (.str "No Product"))

/-- Line 88: `String(item['Price'] || 'No Price').trim().replace(/\s+/g, '')`. -/
def priceOf (item : Row) : String :=
  stripJsWs (trimJs (jsToString (jsOr (objGet item "Price") (.str "No Price"))))

/-- Line 89: `String(item['Old Price'] || '').trim().replace(/\s+/g, '')`. -/
def oldPriceOf (item : Row) : String :=
  stripJsWs (trimJs (jsToString (jsOr (objGet item "Old Price") (.str ""))))

/-- Line 90: `(item['Discount Info'] || '').trim()`. -/
def discountInfoOf (item : Row) : Option String :=
  jsTrim (jsOr (objGet item "Discount Info") (.str ""))

/-- Line 91: `(item['Description'] || '').trim()`. -/
def descriptionOf (item : Row) : Option String :=
  jsTrim (jsOr (objGet item "Description") (.str ""))

/-- Line 92: `(item['Category'] || '').trim()` (computed, unused in render). -/
def categoryOf (item : Row) : Option String :=
  jsTrim (jsOr (objGet item "Category") (.str ""))

/-! ### Card renderer (`app.js` lines 83–173)

Raster buffers are abstract content identifiers; `contents` abstracts
`sharp(path).toBuffer()`. -/

/-- An opaque raster buffer (identified by its byte content). -/
abbrev Buffer := String

/-- The `fit` mode passed to `sharp.resize` (`sharp.fit.inside`: scale to fit
    inside the bounding box preserving aspect ratio). -/
inductive FitMode where
  | inside
  deriving DecidableEq, Repr

/-- One input of a `sharp.composite` call. -/
inductive LayerInput where
  /-- A raster buffer used as-is (the shared `background.png` buffer). -/
  | buf (b : Buffer)
  /-- A buffer resized with the given bounding box and fit mode
      (`app.js` lines 123–129: width 150, height 150, `fit.inside`). -/
  | resized (b : Buffer) (width height : Nat) (fit : FitMode)
  /-- The SVG text overlay (`app.js` lines 136–151) holding the five
      rendered strings; positions and sizes inside it are fixed constants. -/
  | svgText (text description discountInfo price oldPrice : String)
  deriving DecidableEq, Repr

/-- One element of a `composite` list: an input placed at a pixel offset. -/
structure Layer where
  input : LayerInput
  left : Nat
  top : Nat
  deriving DecidableEq, Repr

/-- An RGBA fill color; `alpha = 1` means fully opaque as in the source's
    `{ r: 255, g: 255, b: 255, alpha: 1 }`. -/
structure Rgba where
  r : Nat
  g : Nat
  b : Nat
  alpha : Nat
  deriving DecidableEq, Repr

/-- The `sharp({ create: … })` base canvas. -/
structure Canvas where
  width : Nat
  height : Nat
  channels : Nat
  background : Rgba
  deriving DecidableEq, Repr

/-- Opaque white. -/
def whiteOpaque : Rgba := ⟨255, 255, 255, 1⟩

/-- A composited raster: base canvas plus layers in composite order. -/
structure Raster where
  canvas : Canvas
  layers : List Layer
  deriving DecidableEq, Repr

/-- `app.js` lines 70–71: load `images/background.png` when it exists. -/
def loadBackground (ex : String → Bool) (contents : String → Buffer) :
    Option Buffer :=
  if ex "images/background.png" then some (contents "images/background.png")
  else none

/-- One iteration of the render loop (`app.js` lines 83–172): extract the
    fields, resolve the product image from the slug of the trimmed name,
    build the composite list (optional background at (0,0), optional resized
    product image at (400,20), SVG text at (0,0)) over a blank white opaque
    800×200 canvas.  `none` models a thrown `TypeError` (`.trim()` on a
    non-string cell). -/
def renderCard (ex : String → Bool) (contents : String → Buffer)
    (bg : Option Buffer) (item : Row) : Option Raster := do
  let text ← textOf item
  let price := priceOf item
  let oldPrice := oldPriceOf item
  let discountInfo ← discountInfoOf item
  let description ← descriptionOf item
  let _category ← categoryOf item
  let productImagePath := findProductImage ex (slugOf text)
  let bgLayers := match bg with
    | some b => [Layer.mk (.buf b) 0 0]
    | none => []
  let imgLayers := match productImagePath with
    | some p => [Layer.mk (.resized (contents p) 150 150 .inside) 400 20]
    | none => []
  let textLayer := Layer.mk (.svgText text description discountInfo price oldPrice) 0 0
  some { canvas := ⟨800, 200, 4, whiteOpaque⟩
         layers := bgLayers ++ imgLayers ++ [textLayer] }

/-- The whole render loop: one card per cleaned row, in row order; the first
    thrown exception aborts the loop. -/
def renderAll (ex : String → Bool) (contents : String → Buffer)
    (bg : Option Buffer) (rows : List Row) : Option (List Raster) :=
  rows.mapM (renderCard ex contents bg)

/-! ### Grid compositor (`app.js` lines 175–200) -/

/-- `const columns = 3`. -/
def columns : Nat := 3

/-- `const boxWidth = 800`. -/
def boxWidth : Nat := 800

/-- `const boxHeight = 200`. -/
def boxHeight : Nat := 200

/-- `Math.ceil(n / m)` for natural `n` and positive `m`. -/
def jsCeilDiv (n m : Nat) : Nat := (n + m - 1) / m

/-- A card buffer placed at a pixel offset in the stitched image. -/
structure Placed (β : Type) where
  input : β
  left : Nat
  top : Nat
  deriving DecidableEq, Repr

/-- The composite list of `app.js` lines 192–198: card `i` at
    `left = (i % columns) * boxWidth`, `top = (i / columns) * boxHeight`,
    starting from index `start`. -/
def placeFrom {β : Type} (start : Nat) : List β → List (Placed β)
  | [] => []
  | b :: rest =>
    Placed.mk b (start % columns * boxWidth) (start / columns * boxHeight) ::
      placeFrom (start + 1) rest

/-- The stitched grid raster. -/
structure Grid (β : Type) where
  width : Nat
  height : Nat
  channels : Nat
  background : Rgba
  placements : List (Placed β)
  deriving Repr

/-- `app.js` lines 175–200: the stitched image — a white opaque canvas of
    `columns * boxWidth` by `ceil(n / columns) * boxHeight`, with card `i`
    composited at its row-major cell offset. -/
def gridOf {β : Type} (cards : List β) : Grid β :=
  { width := columns * boxWidth
    height := jsCeilDiv cards.length columns * boxHeight
    channels := 4
    background := whiteOpaque
    placements := placeFrom 0 cards }

/-! ### Upload handler control flow (`app.js` lines 33–225)

The handler's interactions with the world are abstracted into an
environment; thrown exceptions become an `Except`-shaped outcome.  There is
no `try`/`catch` anywhere in the handler, so any throw propagates out of
the `async` function. -/

/-- Pipeline stages of the handler, in source order. -/
inductive Stage where
  | load        -- `xlsx.readFile` + `sheet_to_json`, lines 40–45
  | unlink      -- `fs.unlinkSync`, line 51
  | render      -- clean rows, resolve assets and render cards, lines 54–173
  | grid        -- stitch the grid, lines 175–200
  | exportFiles -- write PNG and PDF, lines 183–217
  deriving DecidableEq, Repr

/-- An exception escaping the handler. -/
inductive Thrown where
  | load (msg : String)    -- thrown by `xlsx.readFile`
  | unlink (msg : String)  -- thrown by `fs.unlinkSync`
  | typeError              -- `.trim()` called on a non-string cell
  deriving DecidableEq, Repr

/-- An HTTP response written by the handler itself. -/
inductive Response where
  | text (status : Nat) (body : String)
  | json (status : Nat) (message imageUrl pdfUrl : String)
  deriving DecidableEq, Repr

/-- The status code of a response. -/
def Response.statusOf : Response → Nat
  | .text s _ => s
  | .json s _ _ _ => s

/-- The world as the handler sees it for one request. -/
structure Env where
  /-- `req.file` — the uploaded file's stored name, when a file was sent. -/
  file : Option String
  /-- Modelled from the spec: the outcome of `xlsx.readFile` plus
      `sheet_to_json` on the first sheet (library code, not in `src/`).
      Per the spec the loader "Fails with a `LoadError` if the file is
      unreadable or contains no sheets"; otherwise it yields the first
      sheet's rows in order. -/
  readResult : Except String (List Row)
  /-- The outcome of `fs.unlinkSync` on the temp file, were it attempted. -/
  unlinkResult : Except String Unit
  /-- `fs.existsSync` over the images directory. -/
  imgExists : String → Bool
  /-- `sharp(path).toBuffer()` — the bytes behind a path. -/
  contents : String → Buffer

/-- What one request did: the response the handler wrote (if any), the
    exception that escaped (if any), the stages that started, in order,
    and whether the uploaded temp file got deleted. -/
structure HResult where
  response : Option Response
  thrown : Option Thrown
  trace : List Stage
  tempFileDeleted : Bool
  gridOut : Option (Grid Raster)

/-- The `POST /upload` handler (`app.js` lines 33–225).  Mirrors the source
    order: no-file guard; `xlsx.readFile` (a throw here skips everything
    after, including the `unlinkSync`); `unlinkSync` (uncaught — a throw
    here aborts the pipeline); header cleaning, render loop, grid, export,
    JSON response. -/
def handleUpload (env : Env) : HResult :=
  match env.file with
  | none =>
    { response := some (.text 400 "No file uploaded.")
      thrown := none, trace := [], tempFileDeleted := false, gridOut := none }
  | some _ =>
    match env.readResult with
    | .error e =>
      { response := none, thrown := some (.load e)
        trace := [.load], tempFileDeleted := false, gridOut := none }
    | .ok data =>
      match env.unlinkResult with
      | .error e =>
        { response := none, thrown := some (.unlink e)
          trace := [.load, .unlink], tempFileDeleted := false, gridOut := none }
      | .ok _ =>
        let cleanedData := data.map cleanRow
        let bg := loadBackground env.imgExists env.contents
        match renderAll env.imgExists env.contents bg cleanedData with
        | none =>
          { response := none, thrown := some .typeError
            trace := [.load, .unlink, .render], tempFileDeleted := true
            gridOut := none }
        | some cards =>
          { response := some (.json 200 "Price sheet generated successfully!"
              "/price-sheet.png" "/price-sheet.pdf")
            thrown := none
            trace := [.load, .unlink, .render, .grid, .exportFiles]
            tempFileDeleted := true
            gridOut := some (gridOf cards) }

/-- Modelled from the spec: how the framework reports an uncaught handler
    failure to the caller (Express wiring, not in `src/`).  Per the spec,
    "any failure surfaces directly to the caller as a failed HTTP
    response", i.e. a server error. -/
def observedResponse (r : HResult) : Response :=
  match r.thrown with
  | some _ => .text 500 "Internal Server Error"
  | none => r.response.getD (.text 500 "Internal Server Error")

/-! ### Helper lemmas -/

/-- Element `i` of the grid's composite list sits at the row-major offset of
    index `start + i`. -/
lemma placeFrom_getElem? {β : Type} :
    ∀ (l : List β) (start i : Nat),
      (placeFrom start l)[i]? =
        l[i]?.map (fun b =>
          Placed.mk b ((start + i) % columns * boxWidth)
            ((start + i) / columns * boxHeight)) := by
  intro l
  induction l with
  | nil => intro start i; simp [placeFrom]
  | cons b tl ih =>
    intro start i
    cases i with
    | zero => simp [placeFrom]
    | succ j =>
      have h := ih (start + 1) j
      simpa [placeFrom, Nat.add_assoc, Nat.add_comm 1 j] using h

/-- The grid's composite list has one entry per card. -/
lemma placeFrom_length {β : Type} :
    ∀ (l : List β) (start : Nat), (placeFrom start l).length = l.length := by
  intro l
  induction l with
  | nil => intro start; rfl
  | cons b tl ih => intro start; simp [placeFrom, ih]

/-- Filtering out the dropped prefix characters changes nothing: they all
    satisfied the predicate. -/
lemma filter_not_dropWhile {α : Type} (p : α → Bool) :
    ∀ l : List α, (l.dropWhile p).filter (fun c => !p c) = l.filter (fun c => !p c) := by
  intro l
  induction l with
  | nil => rfl
  | cons c tl ih =>
    by_cases h : p c
    · simp [List.dropWhile_cons, h, List.filter_cons, ih]
    · simp [List.dropWhile_cons, h, List.filter_cons]

/-- Removing all whitespace after trimming is the same as removing all
    whitespace outright. -/
lemma stripJsWs_trimJs (s : String) : stripJsWs (trimJs s) = stripJsWs s := by
  unfold stripJsWs trimJs dropTrailWs
  congr 1
  rw [List.filter_reverse, filter_not_dropWhile, List.filter_reverse,
    List.reverse_reverse, filter_not_dropWhile]

/-- A JS property assignment adds nothing but the assigned pair. -/
lemma mem_objSet :
    ∀ (row : Row) (k : String) (v : JsValue) (kv : String × JsValue),
      kv ∈ objSet row k v → kv ∈ row ∨ kv = (k, v) := by
  intro row
  induction row with
  | nil => intro k v kv h; right; simpa [objSet] using h
  | cons kv₀ rest ih =>
    intro k v kv h
    by_cases h₀ : kv₀.1 = k
    · simp only [objSet, if_pos h₀] at h
      rcases List.mem_cons.mp h with rfl | hrest
      · right; rfl
      · left; exact List.mem_cons_of_mem _ hrest
    · simp only [objSet, if_neg h₀] at h
      rcases List.mem_cons.mp h with rfl | hrest
      · left; exact List.mem_cons_self _ _
      · rcases ih k v kv hrest with hmem | heq
        · left; exact List.mem_cons_of_mem _ hmem
        · right; exact heq

/-- Invariant of the header-cleaning fold: every produced entry either was
    already accumulated or pairs some original value with its trimmed key. -/
lemma cleanRow_fold_mem :
    ∀ (rest : List (String × JsValue)) (acc : Row) (kv : String × JsValue),
      kv ∈ rest.foldl (fun a p => objSet a (trimJs p.1) p.2) acc →
      kv ∈ acc ∨ ∃ k₀, (k₀, kv.2) ∈ rest ∧ kv.1 = trimJs k₀ := by
  intro rest
  induction rest with
  | nil => intro acc kv h; left; simpa using h
  | cons p tl ih =>
    intro acc kv h
    rw [List.foldl_cons] at h
    rcases ih _ kv h with hacc | ⟨k₀, hk₀, hkv⟩
    · rcases mem_objSet _ _ _ _ hacc with hmem | heq
      · left; exact hmem
      · right
        subst heq
        exact ⟨p.1, by simp, rfl⟩
    · right; exact ⟨k₀, List.mem_cons_of_mem _ hk₀, hkv⟩

/-- Every row value a renderer extraction can see. -/
def strRow (row : Row) : Prop := ∀ kv ∈ row, ∃ s, kv.2 = JsValue.str s

/-- On a row of string cells, a `(item[k] || dflt).trim()` extraction never
    throws. -/
lemma jsTrim_jsOr_str (item : Row) (h : strRow item) (k d : String) :
    ∃ t, jsTrim (jsOr (objGet item k) (.str d)) = some t := by
  cases hv : objGet item k with
  | none => exact ⟨trimJs d, by simp [jsOr, jsTrim]⟩
  | some v =>
    obtain ⟨kv, hmem, hkv⟩ : ∃ kv, kv ∈ item ∧ kv.2 = v := by
      unfold objGet at hv
      cases hf : List.find? (fun kv => kv.1 = k) item with
      | none => rw [hf] at hv; simp at hv
      | some kv =>
        rw [hf] at hv
        exact ⟨kv, List.mem_of_find?_eq_some hf, by simpa using hv⟩
    obtain ⟨s, hs⟩ := h kv hmem
    subst hkv
    rw [hs]
    by_cases ht : jsTruthy (.str s)
    · exact ⟨trimJs s, by simp [jsOr, ht, jsTrim]⟩
    · exact ⟨trimJs d, by simp [jsOr, ht, jsTrim]⟩

/-- Indexing an `Option`-valued `mapM` result: entry `i` of the output is
    the function applied to entry `i` of the input. -/
lemma mapM_option_getElem? {α β : Type} (f : α → Option β) :
    ∀ (l : List α) (r : List β), l.mapM f = some r →
      ∀ i : Nat, r[i]? = l[i]?.bind f := by
  intro l
  induction l with
  | nil =>
    intro r h i
    rw [List.mapM_nil] at h
    cases h
    simp
  | cons a tl ih =>
    intro r h i
    rw [List.mapM_cons] at h
    cases hfa : f a with
    | none => rw [hfa] at h; simp at h
    | some b =>
      rw [hfa] at h
      cases hm : tl.mapM f with
      | none => rw [hm] at h; simp at h
      | some bs =>
        rw [hm] at h
        simp at h
        subst h
        cases i with
        | zero => simp [hfa]
        | succ j => simpa using ih bs hm j

/-! ### Claim theorems -/

/-- C1: for an input of N cards the grid compositor produces a canvas of
    width `3 × 800` and height `ceil(N/3) × 200` (the two inequalities pin
    `jsCeilDiv N 3` as exactly `⌈N/3⌉`) with opaque white background, and
    places card `i` at `(left = (i mod 3) × 800, top = (i div 3) × 200)` in
    strict row-major input order, one placement per card. -/
theorem grid_layout_rowMajor {β : Type} (cards : List β) :
    (gridOf cards).width = 3 * 800 ∧
    (gridOf cards).height = jsCeilDiv cards.length 3 * 200 ∧
    cards.length ≤ 3 * jsCeilDiv cards.length 3 ∧
    3 * jsCeilDiv cards.length 3 < cards.length + 3 ∧
    (gridOf cards).background = whiteOpaque ∧
    (gridOf cards).channels = 4 ∧
    (gridOf cards).placements.length = cards.length ∧
    ∀ i : Nat, (gridOf cards).placements[i]? =
      cards[i]?.map (fun b => Placed.mk b (i % 3 * 800) (i / 3 * 200)) := by
  refine ⟨rfl, rfl, ?_, ?_, rfl, rfl, ?_, ?_⟩
  · unfold jsCeilDiv; omega
  · unfold jsCeilDiv; omega
  · exact placeFrom_length cards 0
  · intro i
    have h := placeFrom_getElem? cards 0 i
    simpa [gridOf, columns, boxWidth, boxHeight] using h

/-- C2: the product slug used for asset lookup is the trimmed product name,
    lowercased, with every whitespace run replaced by one hyphen (the trim
    from line 87 happens before the slug derivation of line 95); the
    resolver probes `images/<slug><ext>` for the extensions `.png`, `.jpg`,
    `.jpeg`, `.webp` in that fixed order and returns the first existing
    path, and returns `none` — a value, not an error — when no extension
    matches. -/
theorem slug_and_asset_probe :
    (∀ (item : Row) (s : String), objGet item "Product" = some (.str s) → s ≠ "" →
        (textOf item).map slugOf = some (collapseWsToHyphen (lowerJs (trimJs s)))) ∧
    extensions = [".png", ".jpg", ".jpeg", ".webp"] ∧
    (∀ (ex : String → Bool) (slug p : String),
        findProductImage ex slug = some p ↔
          ex p ∧ ∃ i h, (extensions.map (imagePath slug))[i] = p ∧
            ∀ j : Nat, (hj : j < i) → !ex ((extensions.map (imagePath slug))[j])) ∧
    (∀ (ex : String → Bool) (slug : String),
        (∀ e ∈ extensions, ex (imagePath slug e) = false) →
          findProductImage ex slug = none) := by
  refine ⟨?_, rfl, ?_, ?_⟩
  · intro item s hcell hs
    have htruth : jsTruthy (.str s) = true := by
      have : ¬ s.isEmpty := fun hempty => hs ((String.isEmpty_iff s).mp hempty)
      simp [jsTruthy, this]
    have : textOf item = some (trimJs s) := by
      unfold textOf
      rw [hcell]
      simp [jsOr, htruth, jsTrim]
    rw [this]
    rfl
  · intro ex slug p
    exact List.find?_eq_some_iff_getElem
  · intro ex slug h
    unfold findProductImage
    rw [List.find?_eq_none]
    intro x hx
    obtain ⟨e, he, rfl⟩ := List.mem_map.mp hx
    simp [h e he]

/-- C2 witness: at concrete inputs — a product cell `"  Fresh Milk  "`
    slugs to `fresh-milk`, and a filesystem with no matching file yields a
    not-found result. -/
theorem slug_and_asset_probe_witness :
    (textOf [("Product", JsValue.str "  Fresh Milk  ")]).map slugOf = some "fresh-milk" ∧
    findProductImage (fun _ => false) "fresh-milk" = none := by
  constructor
  · have h := slug_and_asset_probe.1 [("Product", JsValue.str "  Fresh Milk  ")]
      "  Fresh Milk  " (by decide) (by decide)
    rw [h]
    decide
  · exact slug_and_asset_probe.2.2.2 (fun _ => false) "fresh-milk" (fun e _ => rfl)

/-- C3: on any row of string cells the card renderer succeeds (no error),
    producing a blank white opaque 800×200 base canvas layered, in order,
    with: the shared background at (0,0) when present, the resolved product
    image — resized to fit inside a 150×150 box — at (400,20) when found,
    and the text overlay; a missing product image or missing background
    simply drops that layer. -/
theorem card_composition (ex : String → Bool) (co : String → Buffer)
    (bg : Option Buffer) (item : Row) (h : strRow item) :
    ∃ card, renderCard ex co bg item = some card ∧
      card.canvas = Canvas.mk 800 200 4 whiteOpaque ∧
      ∃ text description discountInfo,
        textOf item = some text ∧
        descriptionOf item = some description ∧
        discountInfoOf item = some discountInfo ∧
        card.layers =
          (match bg with
           | some b => [Layer.mk (.buf b) 0 0]
           | none => []) ++
          (match findProductImage ex (slugOf text) with
           | some p => [Layer.mk (.resized (co p) 150 150 .inside) 400 20]
           | none => []) ++
          [Layer.mk (.svgText text description discountInfo
              (priceOf item) (oldPriceOf item)) 0 0] := by
  obtain ⟨t, ht⟩ := jsTrim_jsOr_str item h "Product" "No Product"
  obtain ⟨di, hdi⟩ := jsTrim_jsOr_str item h "Discount Info" ""
  obtain ⟨de, hde⟩ := jsTrim_jsOr_str item h "Description" ""
  obtain ⟨cg, hcg⟩ := jsTrim_jsOr_str item h "Category" ""
  have ht' : textOf item = some t := ht
  have hdi' : discountInfoOf item = some di := hdi
  have hde' : descriptionOf item = some de := hde
  have hcg' : categoryOf item = some cg := hcg
  refine ⟨⟨⟨800, 200, 4, whiteOpaque⟩,
      (match bg with
       | some b => [Layer.mk (.buf b) 0 0]
       | none => []) ++
      (match findProductImage ex (slugOf t) with
       | some p => [Layer.mk (.resized (co p) 150 150 .inside) 400 20]
       | none => []) ++
      [Layer.mk (.svgText t de di (priceOf item) (oldPriceOf item)) 0 0]⟩,
    ?_, rfl, t, de, di, ht', hde', hdi', rfl⟩
  simp [renderCard, ht', hdi', hde', hcg']

/-- C3 witness: a concrete row with only a product name, no background and
    an empty filesystem still renders (no error). -/
theorem card_composition_witness :
    renderCard (fun _ => false) (fun _ => ("" : Buffer)) none
      [("Product", JsValue.str "Milk")] ≠ none := by
  obtain ⟨card, hc, -, -⟩ :=
    card_composition (fun _ => false) (fun _ => "") none
      [("Product", JsValue.str "Milk")]
      (by
        intro kv hkv
        rcases List.mem_singleton.mp hkv with rfl
        exact ⟨"Milk", rfl⟩)
  rw [hc]
  simp

/-- C8: rendering is per-row independent — entry `i` of the rendered list
    is purely `renderCard` of record `i` with the two shared assets, so two
    runs whose records agree at `i` (whatever the other rows hold) produce
    the identical card at `i`. -/
theorem render_row_independent (ex : String → Bool) (co : String → Buffer)
    (bg : Option Buffer) (rows rowsB : List Row) (cards cardsB : List Raster)
    (h : renderAll ex co bg rows = some cards)
    (hB : renderAll ex co bg rowsB = some cardsB)
    (i : Nat) (hrow : rows[i]? = rowsB[i]?) :
    cards[i]? = rows[i]?.bind (renderCard ex co bg) ∧
    cards[i]? = cardsB[i]? := by
  have e1 := mapM_option_getElem? (renderCard ex co bg) rows cards h i
  have e2 := mapM_option_getElem? (renderCard ex co bg) rowsB cardsB hB i
  exact ⟨e1, by rw [e1, e2, hrow]⟩

/-- C8 witness: two concrete runs sharing row 0 but differing at row 1
    produce the same card 0. -/
theorem render_row_independent_witness :
    ∃ cards cardsB : List Raster,
      renderAll (fun _ => false) (fun _ => ("" : Buffer)) none
        [[("Product", JsValue.str "A")], [("Product", JsValue.str "B")]] =
          some cards ∧
      renderAll (fun _ => false) (fun _ => ("" : Buffer)) none
        [[("Product", JsValue.str "A")], [("Product", JsValue.str "C")]] =
          some cardsB ∧
      cards[0]? = cardsB[0]? := by
  cases hR : renderAll (fun _ => false) (fun _ => ("" : Buffer)) none
      [[("Product", JsValue.str "A")], [("Product", JsValue.str "B")]] with
  | none => exact absurd hR (by decide)
  | some cards =>
    cases hRB : renderAll (fun _ => false) (fun _ => ("" : Buffer)) none
        [[("Product", JsValue.str "A")], [("Product", JsValue.str "C")]] with
    | none => exact absurd hRB (by decide)
    | some cardsB =>
      exact ⟨cards, cardsB, rfl, rfl,
        (render_row_independent _ _ _ _ _ _ _ hR hRB 0 rfl).2⟩

/-- C5: when the loader fails (unreadable file / no sheets, modelled per
    the spec as `readResult = .error`), the load exception escapes, the
    trace stops at the load stage — render, grid and export never start —
    the handler writes no response itself, and the caller observes a server
    error (the error-to-response step is framework behavior modelled from
    the spec). -/
theorem load_error_aborts_pipeline (env : Env) (f e : String)
    (hf : env.file = some f) (he : env.readResult = .error e) :
    (handleUpload env).thrown = some (.load e) ∧
    (handleUpload env).trace = [Stage.load] ∧
    Stage.render ∉ (handleUpload env).trace ∧
    Stage.grid ∉ (handleUpload env).trace ∧
    Stage.exportFiles ∉ (handleUpload env).trace ∧
    (handleUpload env).response = none ∧
    (observedResponse (handleUpload env)).statusOf = 500 := by
  have hh : handleUpload env =
      { response := none, thrown := some (.load e), trace := [.load],
        tempFileDeleted := false, gridOut := none } := by
    simp [handleUpload, hf, he]
  rw [hh]
  refine ⟨rfl, rfl, ?_, ?_, ?_, rfl, rfl⟩ <;> simp

/-- C5 witness: a concrete environment whose spreadsheet read throws. -/
theorem load_error_aborts_pipeline_witness :
    (observedResponse (handleUpload ⟨some "up", Except.error "unreadable",
        Except.ok (), fun _ => false, fun _ => ""⟩)).statusOf = 500 ∧
    (handleUpload ⟨some "up", Except.error "unreadable", Except.ok (),
        fun _ => false, fun _ => ""⟩).trace = [Stage.load] := by
  have h := load_error_aborts_pipeline
    ⟨some "up", Except.error "unreadable", Except.ok (), fun _ => false, fun _ => ""⟩
    "up" "unreadable" rfl rfl
  exact ⟨h.2.2.2.2.2.2, h.2.1⟩

/-- C6: with no uploaded file the handler answers HTTP 400 with a
    plain-text body at once; no pipeline stage starts and the temp file
    machinery is never touched. -/
theorem no_file_short_circuit (env : Env) (h : env.file = none) :
    handleUpload env =
      { response := some (.text 400 "No file uploaded."), thrown := none,
        trace := [], tempFileDeleted := false, gridOut := none } := by
  simp [handleUpload, h]

/-- C6 witness: a concrete request without a file. -/
theorem no_file_short_circuit_witness :
    handleUpload ⟨none, Except.ok [], Except.ok (), fun _ => false, fun _ => ""⟩ =
      { response := some (.text 400 "No file uploaded."), thrown := none,
        trace := [], tempFileDeleted := false, gridOut := none } :=
  no_file_short_circuit _ rfl

/-- C7 counterexample: the claim fails on the code in both directions — at
    a concrete environment whose read throws (and whose `unlink` would have
    succeeded) the temp file is not deleted, so removal is not "regardless
    of whether loading succeeded"; and at a concrete environment whose
    deletion throws, the exception escapes the handler (fatal and
    observable), instead of being merely logged. -/
theorem unlink_claim_counterexample :
    (handleUpload ⟨some "tmpfile", Except.error "unreadable", Except.ok (),
        fun _ => false, fun _ => ""⟩).tempFileDeleted = false ∧
    (handleUpload ⟨some "tmpfile", Except.ok [], Except.error "EPERM",
        fun _ => false, fun _ => ""⟩).thrown = some (.unlink "EPERM") :=
  ⟨rfl, rfl⟩

/-- C7 as amended: the temp file is removed immediately after the loader
    read it (load then unlink, before any rendering) but only on the
    load-success path; when loading throws, the unlink never runs and the
    file stays behind; and a deletion failure is uncaught — it escapes as
    an exception and aborts the pipeline before rendering rather than being
    logged and ignored. -/
theorem unlink_after_load_success_only (env : Env) (f : String)
    (hf : env.file = some f) :
    (∀ rows, env.readResult = .ok rows → env.unlinkResult = .ok () →
        (handleUpload env).tempFileDeleted = true ∧
        (handleUpload env).trace.take 2 = [Stage.load, Stage.unlink]) ∧
    (∀ e, env.readResult = .error e →
        (handleUpload env).tempFileDeleted = false ∧
        Stage.unlink ∉ (handleUpload env).trace) ∧
    (∀ rows e, env.readResult = .ok rows → env.unlinkResult = .error e →
        (handleUpload env).thrown = some (.unlink e) ∧
        (handleUpload env).tempFileDeleted = false ∧
        Stage.render ∉ (handleUpload env).trace ∧
        (handleUpload env).response = none) := by
  refine ⟨?_, ?_, ?_⟩
  · intro rows hr hu
    simp only [handleUpload, hf, hr, hu]
    cases renderAll env.imgExists env.contents
        (loadBackground env.imgExists env.contents) (rows.map cleanRow) with
    | none => simp
    | some cards => simp
  · intro e hr
    simp [handleUpload, hf, hr]
  · intro rows e hr hu
    simp [handleUpload, hf, hr, hu]

/-- C7 witness: concrete environments for the success and failure paths of
    the amended statement. -/
theorem unlink_after_load_success_only_witness :
    (handleUpload ⟨some "t", Except.ok [], Except.ok (),
        fun _ => false, fun _ => ""⟩).tempFileDeleted = true ∧
    (handleUpload ⟨some "t", Except.error "bad", Except.ok (),
        fun _ => false, fun _ => ""⟩).tempFileDeleted = false := by
  refine ⟨((unlink_after_load_success_only
      ⟨some "t", Except.ok [], Except.ok (), fun _ => false, fun _ => ""⟩
      "t" rfl).1 [] rfl rfl).1, ?_⟩
  exact ((unlink_after_load_success_only
      ⟨some "t", Except.error "bad", Except.ok (), fun _ => false, fun _ => ""⟩
      "t" rfl).2.1 "bad" rfl).1

/-- A one-entry JS object lookup at its own key. -/
lemma objGet_singleton (k : String) (v : JsValue) : objGet [(k, v)] k = some v := by
  unfold objGet
  rw [List.find?_cons_of_pos _ (by simp)]
  rfl

/-- C4 counterexample: the loader leaves cell values untrimmed — a record
    loaded from header `" Price "` and cell `" 5 "` holds the value with
    its spaces intact, so the claim's "trims whitespace from … values" is
    false of the table loader. -/
theorem loader_value_kept_counterexample :
    objGet (cleanRow [(" Price ", JsValue.str " 5 ")]) "Price" =
      some (JsValue.str " 5 ") ∧
    JsValue.str " 5 " ≠ JsValue.str "5" := by
  exact ⟨by decide, by decide⟩

/-- C4 as amended: the loader trims whitespace from column names only —
    every produced entry pairs an original, unmodified cell value with the
    trimmed form of its original key — and in particular the headers
    `" Price "` and `"Price"` both populate the field `"Price"`, with the
    value passed through untouched. -/
theorem loader_trims_keys_only (row : Row) (v : JsValue) :
    (∀ kv, kv ∈ cleanRow row → ∃ k₀, (k₀, kv.2) ∈ row ∧ kv.1 = trimJs k₀) ∧
    objGet (cleanRow [(" Price ", v)]) "Price" = some v ∧
    objGet (cleanRow [("Price", v)]) "Price" = some v := by
  refine ⟨?_, ?_, ?_⟩
  · intro kv h
    rcases cleanRow_fold_mem row [] kv h with habs | hgood
    · exact absurd habs (List.not_mem_nil kv)
    · exact hgood
  · have h1 : cleanRow [(" Price ", v)] = [("Price", v)] := by
      unfold cleanRow
      rw [List.foldl_cons, List.foldl_nil]
      have ht : trimJs " Price " = "Price" := by decide
      show objSet [] (trimJs " Price ") v = [("Price", v)]
      rw [ht]
      rfl
    rw [h1]
    exact objGet_singleton "Price" v
  · have h1 : cleanRow [("Price", v)] = [("Price", v)] := by
      unfold cleanRow
      rw [List.foldl_cons, List.foldl_nil]
      have ht : trimJs "Price" = "Price" := by decide
      show objSet [] (trimJs "Price") v = [("Price", v)]
      rw [ht]
      rfl
    rw [h1]
    exact objGet_singleton "Price" v

/-- C4 witness: at a concrete one-entry row, every cleaned entry comes from
    an original value under a trimmed key, and values survive unchanged. -/
theorem loader_trims_keys_only_witness :
    (∃ k₀, (k₀, JsValue.str "x") ∈ [(" A ", JsValue.str "x")] ∧
      "A" = trimJs k₀) ∧
    objGet (cleanRow [(" Price ", JsValue.str " 5 ")]) "Price" =
      some (JsValue.str " 5 ") := by
  have h := loader_trims_keys_only [(" A ", JsValue.str "x")] (JsValue.num 0)
  have h2 := loader_trims_keys_only [] (JsValue.str " 5 ")
  exact ⟨h.1 ("A", JsValue.str "x") (by decide), h2.2.1⟩

/-- C9 counterexample: a record with no `Price` cell renders the price
    `"NoPrice"` — the whitespace stripping of line 88 also eats the space
    inside the `'No Price'` placeholder — so the claim's rendered default
    `"No Price"` is false of the code. -/
theorem price_default_counterexample :
    priceOf [] = "NoPrice" ∧ "NoPrice" ≠ "No Price" := by
  exact ⟨by decide, by decide⟩

/-- C9 as amended: the placeholder defaults apply to all falsy cell values,
    not only absent columns — a missing, empty or otherwise falsy `Product`
    cell renders the name `"No Product"`, and a missing, empty or
    numerically zero `Price` cell renders the price `"NoPrice"` (the
    placeholder's own space is removed by the whitespace stripping). -/
theorem falsy_cells_get_defaults (item : Row) :
    ((objGet item "Product" = none ∨
        ∃ v, objGet item "Product" = some v ∧ jsTruthy v = false) →
      textOf item = some "No Product") ∧
    ((objGet item "Price" = none ∨
        ∃ v, objGet item "Price" = some v ∧ jsTruthy v = false) →
      priceOf item = "NoPrice") := by
  constructor
  · rintro (hc | ⟨v, hv, hfalsy⟩)
    · unfold textOf
      rw [hc]
      decide
    · unfold textOf
      rw [hv]
      simp only [jsOr, hfalsy, Bool.false_eq_true, if_false]
      decide
  · rintro (hc | ⟨v, hv, hfalsy⟩)
    · unfold priceOf
      rw [hc]
      decide
    · unfold priceOf
      rw [hv]
      simp only [jsOr, hfalsy, Bool.false_eq_true, if_false]
      decide

/-- C9 witness: a concrete record whose `Price` cell is the number `0` and
    whose `Product` cell is absent. -/
theorem falsy_cells_get_defaults_witness :
    textOf [("Price", JsValue.num 0)] = some "No Product" ∧
    priceOf [("Price", JsValue.num 0)] = "NoPrice" := by
  have h := falsy_cells_get_defaults [("Price", JsValue.num 0)]
  exact ⟨h.1 (Or.inl (by decide)),
    h.2 (Or.inr ⟨JsValue.num 0, by decide, rfl⟩)⟩

/-- C10: for a (truthy) string cell, `Price` and `Old Price` lose every
    whitespace character, interior included (`"$ 9 . 99"` becomes
    `"$9.99"`), while `Product`, `Description` and `Discount Info` are only
    trimmed at the ends (`" a  b "` keeps its interior spaces). -/
theorem price_whitespace_stripped (s : String) (hs : s ≠ "") :
    priceOf [("Price", JsValue.str s)] = stripJsWs s ∧
    oldPriceOf [("Old Price", JsValue.str s)] = stripJsWs s ∧
    textOf [("Product", JsValue.str s)] = some (trimJs s) ∧
    descriptionOf [("Description", JsValue.str s)] = some (trimJs s) ∧
    discountInfoOf [("Discount Info", JsValue.str s)] = some (trimJs s) ∧
    stripJsWs "$ 9 . 99" = "$9.99" ∧
    trimJs " a  b " = "a  b" := by
  have htruth : jsTruthy (.str s) = true := by
    have : ¬ s.isEmpty := fun hempty => hs ((String.isEmpty_iff s).mp hempty)
    simp [jsTruthy, this]
  refine ⟨?_, ?_, ?_, ?_, ?_, by decide, by decide⟩
  · unfold priceOf
    rw [objGet_singleton]
    simp only [jsOr, htruth, if_true, jsToString]
    exact stripJsWs_trimJs s
  · unfold oldPriceOf
    rw [objGet_singleton]
    simp only [jsOr, htruth, if_true, jsToString]
    exact stripJsWs_trimJs s
  · unfold textOf
    rw [objGet_singleton]
    simp [jsOr, htruth, jsTrim]
  · unfold descriptionOf
    rw [objGet_singleton]
    simp [jsOr, htruth, jsTrim]
  · unfold discountInfoOf
    rw [objGet_singleton]
    simp [jsOr, htruth, jsTrim]

/-- C10 witness: the spec's own example price. -/
theorem price_whitespace_stripped_witness :
    priceOf [("Price", JsValue.str "$ 9 . 99")] = "$9.99" := by
  have h := price_whitespace_stripped "$ 9 . 99" (by decide)
  rw [h.1]
  decide

end PriceSheet
